import Mathlib

/-!
Verification of the sparse linear-solver configuration, kernel-tuning and
saddle-point solver layer of code_saturne.

Shallow embedding conventions:
* C `double` values are modelled as `ℚ` wherever the code only compares,
  adds, multiplies and divides them (convergence tests, measured costs,
  parameter defaults), and as `ℝ` where square roots occur (the MINRES
  scalar recurrence).
* Machine integers (`int`, `cs_lnum_t`) are modelled as `Int`/`Nat`; none of
  the translated code can overflow them on the inputs considered.
* `bft_error` (fatal abort) is modelled with `Except`: reaching the abort is
  `Except.error d` where `d` records the diagnostic and its payload.
* Wall-clock measurement (`cs_timer_time` differences, after the optional
  MPI max-reduction) is an oracle function passed as an argument.
* Function pointers (SpMV kernels) are modelled by abstract numeric
  identifiers; a null pointer is `Option.none`.
-/

/-! ### Convergence bookkeeping (src/cdo/cs_iter_algo.h, cs_saddle_itsol.c) -/

/-- `cs_sles_convergence_state_t`: convergence status of an iterative
solver. -/
inductive cs_sles_convergence_state_t where
  | diverged
  | breakdown
  | max_iteration
  | iterating
  | converged
deriving DecidableEq, Repr

/-- `cs_iter_algo_info_t` (src/cdo/cs_iter_algo.h, lines 117-132). -/
structure cs_iter_algo_info_t where
  verbosity : Int
  n_max_algo_iter : Nat
  atol : ℚ
  rtol : ℚ
  dtol : ℚ
  cvg : cs_sles_convergence_state_t
  res : ℚ
  res0 : ℚ
  tol : ℚ
  n_algo_iter : Nat
  n_inner_iter : Nat
  last_inner_iter : Nat
deriving DecidableEq, Repr

/-- `_cvg_test` (src/cdo/cs_saddle_itsol.c, lines 105-137): increment the
iteration counter, set the convergence status, return `true` when one more
iteration is needed.  Logging (verbosity > 0) has no effect on the state and
is omitted. -/
def _cvg_test (info : cs_iter_algo_info_t) : cs_iter_algo_info_t × Bool :=
  let info := { info with n_algo_iter := info.n_algo_iter + 1 }
  let prev_res := info.res
  let epsilon := max (info.rtol * info.res0) info.atol
  let cvg :=
    if info.res < epsilon then cs_sles_convergence_state_t.converged
    else if info.n_algo_iter ≥ info.n_max_algo_iter then
      cs_sles_convergence_state_t.max_iteration
    else if info.res > info.dtol * prev_res then
      cs_sles_convergence_state_t.diverged
    else cs_sles_convergence_state_t.iterating
  let info := { info with cvg := cvg }
  (info, if info.cvg = cs_sles_convergence_state_t.iterating then true else false)

/-- Status cases exactly as the claim words them: converged if the current
residual is strictly below `max(atol, rtol * initial_residual)`; otherwise
max-iteration if the incremented counter reaches the cap; otherwise diverged
if the residual exceeds `dtol` times the residual the test was entered with;
otherwise iterating. -/
def claimed_cvg_status (info : cs_iter_algo_info_t) : cs_sles_convergence_state_t :=
  if info.res < max info.atol (info.rtol * info.res0) then
    cs_sles_convergence_state_t.converged
  else if info.n_algo_iter + 1 ≥ info.n_max_algo_iter then
    cs_sles_convergence_state_t.max_iteration
  else if info.res > info.dtol * info.res then
    cs_sles_convergence_state_t.diverged
  else cs_sles_convergence_state_t.iterating

/-! ### MINRES scalar recurrence (src/cdo/cs_saddle_itsol.c, cs_saddle_minres)

The per-iteration scalar recurrence of `cs_saddle_minres` (lines 762-853).
The two dot products computed on the block vectors, `alpha = <z, mz>` (after
the matrix-vector product) and `dp = <v, z>` (after the preconditioner
application), are inputs of the scalar step; everything else is translated
statement by statement.  The C `assert` calls guarding the two divisions are
modelled as immediate fatal signals, which is their semantics when active. -/

/-- Fatal numerical preconditions of one `cs_saddle_minres` iteration. -/
inductive minres_fatal where
  | beta_zero
  | rho1_small
deriving DecidableEq, Repr

/-- The scalar state carried across `cs_saddle_minres` iterations. -/
structure minres_scalars where
  beta : ℝ
  betaold : ℝ
  c : ℝ
  cold : ℝ
  s : ℝ
  sold : ℝ
  eta : ℝ
  res : ℝ

/-- One iteration of the `cs_saddle_minres` scalar recurrence, as a relation
between the entry state and the outcome.  Control flow follows the source:
`assert(fabs(beta) > 0.)` guards the division by `beta`;
`assert(fabs(rho1) > DBL_MIN)` (with `DBL_MIN = 2^-1022`) guards the division
by `rho1`; on success the state is updated per the Givens-rotation QR update
(`res *= fabs(s)`, `eta = -s*eta` with the updated `s`). -/
def cs_saddle_minres_scalar_step (alpha dp : ℝ) (st : minres_scalars)
    (out : Except minres_fatal minres_scalars) : Prop :=
  (¬ 0 < |st.beta| ∧ out = Except.error minres_fatal.beta_zero)
  ∨ (0 < |st.beta| ∧
      let ibeta := 1 / st.beta
      let betaold1 := st.beta
      let beta1 := Real.sqrt |dp|
      let rho0 := st.c * alpha - st.cold * st.s * betaold1
      let rho1 := Real.sqrt (rho0 * rho0 + beta1 * beta1)
      ((¬ (2 : ℝ) ^ (-1022 : ℤ) < |rho1| ∧ out = Except.error minres_fatal.rho1_small)
       ∨ ((2 : ℝ) ^ (-1022 : ℤ) < |rho1| ∧
           let irho1 := 1 / rho1
           out = Except.ok
             { beta := beta1
               betaold := betaold1
               c := rho0 * irho1
               cold := st.c
               s := beta1 * irho1
               sold := st.s
               eta := -(beta1 * irho1) * st.eta
               res := st.res * |beta1 * irho1| })))

/-! ### Kernel tuning engine (src/alge/cs_matrix_tuning.cpp)

Matrix.vector products have `CS_MATRIX_SPMV_N_TYPES = 2` operation types
(`y = A.x` and `y = (A-D).x`), indexed by `Fin 2` below. -/

/-- `cs_alloc_mode_t`: allocation location of the matrix arrays. -/
inductive cs_alloc_mode_t where
  | host
  | host_device
  | device
deriving DecidableEq, Repr

/-- `cs_matrix_variant_t`: a candidate kernel set.  `vector_multiply` holds
one (possibly null) kernel identifier per operation type,
`vector_multiply_xy_hd` the host/device tag characters. -/
structure cs_matrix_variant_t where
  name : Fin 2 → String
  fill_type : Nat
  vector_multiply : Fin 2 → Option Nat
  vector_multiply_xy_hd : Fin 2 → Char

/-- The fields of `cs_matrix_t` read or locally rewired by the tuning
engine; the active kernel tables are indexed by fill type and operation
type. -/
structure cs_matrix_t where
  fill_type : Nat
  alloc_mode : cs_alloc_mode_t
  vector_multiply : Nat → Fin 2 → Option Nat
  vector_multiply_h : Nat → Fin 2 → Option Nat
  vector_multiply_d : Nat → Fin 2 → Option Nat

/-- `const int n_runs = (n_measure > 0) ? n_measure : 1;` -/
def tune_n_runs (n_measure : Int) : Int :=
  if n_measure > 0 then n_measure else 1

/-- Point update of a kernel table at one (fill type, operation type) slot. -/
def table_update (t : Nat → Fin 2 → Option Nat) (f : Nat) (op : Fin 2)
    (k : Option Nat) : Nat → Fin 2 → Option Nat :=
  fun f' op' => if f' = f ∧ op' = op then k else t f' op'

/-- The local copy `m_t` of the matrix built inside `_matrix_tune_test`
(lines 185-195 of cs_matrix_tuning.cpp): `memcpy(&m_t, m, ...)` then rewire
the kernel slot for the measured variant, also in the host/device tables
when built with accelerator support (`HAVE_ACCEL`). -/
def tune_rewire (have_accel : Bool) (m : cs_matrix_t) (v : cs_matrix_variant_t)
    (op : Fin 2) (kern : Nat) : cs_matrix_t :=
  let m_t := { m with
    vector_multiply := table_update m.vector_multiply m.fill_type op (some kern) }
  if have_accel then
    if v.vector_multiply_xy_hd 0 = 'd' then
      { m_t with vector_multiply_d :=
          table_update m_t.vector_multiply_d m.fill_type op (some kern) }
    else
      { m_t with vector_multiply_h :=
          table_update m_t.vector_multiply_h m.fill_type op (some kern) }
  else m_t

/-- Final value of `spmv_cost[v_id*2 + op]` as computed by
`_matrix_tune_test` (lines 162-236): first set to `-1`; left at `-1` when no
kernel is registered for the slot, or (with accelerator support) when the
variant is device-tagged while the matrix is host-allocated; otherwise
overwritten with the measured per-run cost `wt_r0 / n_runs`.  `measure`
returns the elapsed wall time `wt_r0` of the timed loop (after the MPI max
reduction) when running with the locally rewired matrix copy. -/
def spmv_cost_entry (have_accel : Bool) (m : cs_matrix_t)
    (measure : cs_matrix_t → Nat → Fin 2 → ℚ) (n_measure : Int)
    (vs : List cs_matrix_variant_t) (v_id : Nat) (op : Fin 2) : ℚ :=
  match vs[v_id]? with
  | none => -1
  | some v =>
    match v.vector_multiply op with
    | none => -1
    | some kern =>
      if have_accel ∧ m.alloc_mode = cs_alloc_mode_t.host
          ∧ v.vector_multiply_xy_hd 0 = 'd' then -1
      else measure (tune_rewire have_accel m v op kern) v_id op
             / ((tune_n_runs n_measure : Int) : ℚ)

/-- Whether `_matrix_tune_test` performs measurement runs for the pair
(variant `v_id`, operation type `op`). -/
def tune_pair_measured (have_accel : Bool) (m : cs_matrix_t)
    (vs : List cs_matrix_variant_t) (v_id : Nat) (op : Fin 2) : Bool :=
  match vs[v_id]? with
  | none => false
  | some v =>
    match v.vector_multiply op with
    | none => false
    | some _ =>
      ¬ (have_accel ∧ m.alloc_mode = cs_alloc_mode_t.host
          ∧ v.vector_multiply_xy_hd 0 = 'd')

/-- Number of kernel invocations performed by `_matrix_tune_test`: one
untimed run plus `n_runs` timed runs per measured (variant, operation type)
pair. -/
def tune_kernel_runs (have_accel : Bool) (m : cs_matrix_t) (n_measure : Int)
    (vs : List cs_matrix_variant_t) : Nat :=
  ((List.range vs.length).map (fun i =>
      (if tune_pair_measured have_accel m vs i 0 then
        (tune_n_runs n_measure).toNat + 1 else 0)
      + (if tune_pair_measured have_accel m vs i 1 then
        (tune_n_runs n_measure).toNat + 1 else 0))).sum

/-- `_matrix_tune_test` (lines 130-240): returns the cost array together
with the matrix as the caller sees it after the call.  All kernel-slot
rewiring happens on the local copy `m_t` (see `tune_rewire`); the function
reads `m` through a `const` pointer and never writes through it, so the
caller's matrix is returned as-is. -/
def _matrix_tune_test (have_accel : Bool) (m : cs_matrix_t) (n_measure : Int)
    (vs : List cs_matrix_variant_t)
    (measure : cs_matrix_t → Nat → Fin 2 → ℚ) :
    (Nat → Fin 2 → ℚ) × cs_matrix_t :=
  (spmv_cost_entry have_accel m measure n_measure vs, m)

/-- Location class of a variant for one operation type in
`_matrix_tune_spmv_select`: `int k = 1; if (mv->vector_multiply_xy_hd[j] == 'd') k = 2;`
(class 0 is the combined slot, never assigned during the scan). -/
def hd_class (v : cs_matrix_variant_t) (j : Fin 2) : Fin 3 :=
  if v.vector_multiply_xy_hd j = 'd' then 2 else 1

/-- One step of the `min_c` scan loop of `_matrix_tune_spmv_select`
(lines 292-305): for each operation type, a variant with strictly positive
cost becomes the running minimum of its location class if the slot is empty
or its cost is strictly smaller than the current minimum. -/
def min_c_update (cost : Nat → Fin 2 → ℚ) (vs : List cs_matrix_variant_t)
    (mc : Fin 3 → Fin 2 → Option Nat) (i : Nat) : Fin 3 → Fin 2 → Option Nat :=
  fun k j =>
    match vs[i]? with
    | none => mc k j
    | some v =>
      if 0 < cost i j ∧ k = hd_class v j then
        match mc k j with
        | none => some i
        | some p => if cost i j < cost p j then some i else some p
      else mc k j

/-- The `min_c` scan restricted to the first `n` variants (proof helper for
the loop invariant). -/
def min_c_scan_upto (cost : Nat → Fin 2 → ℚ) (vs : List cs_matrix_variant_t)
    (n : Nat) : Fin 3 → Fin 2 → Option Nat :=
  (List.range n).foldl (min_c_update cost vs) (fun _ _ => none)

/-- The full `min_c` scan loop (`for (int i = 0; i < n_variants; i++) ...`). -/
def min_c_scan (cost : Nat → Fin 2 → ℚ) (vs : List cs_matrix_variant_t) :
    Fin 3 → Fin 2 → Option Nat :=
  min_c_scan_upto cost vs vs.length

/-- The combined-slot merge loop of `_matrix_tune_spmv_select`
(lines 308-320): the host optimum is installed first; a device optimum then
replaces it only when strictly cheaper. -/
def min_c_merge (cost : Nat → Fin 2 → ℚ) (mc : Fin 3 → Fin 2 → Option Nat) :
    Fin 3 → Fin 2 → Option Nat :=
  fun k j =>
    if k = 0 then
      let c0 := mc 0 j
      let c1 := match mc 1 j with
        | some h => some h
        | none => c0
      match mc 2 j with
      | some d => match c1 with
        | some b => if cost d j < cost b j then some d else some b
        | none => some d
      | none => c1
    else mc k j

/-- Selection core of `_matrix_tune_spmv_select` (lines 290-320): the chosen
variant index per location class and operation type.  The preliminary MPI
max-reduction of the cost array is the identity on a single rank and is
subsumed in the `cost` input; the log output (lines 339-360) does not affect
the selection. -/
def _matrix_tune_spmv_select (cost : Nat → Fin 2 → ℚ)
    (vs : List cs_matrix_variant_t) : Fin 3 → Fin 2 → Option Nat :=
  min_c_merge cost (min_c_scan cost vs)

/-- A variant index eligible for class `k` and operation type `j` during the
`min_c` scan: in range, strictly positive cost, matching location class. -/
def scan_candidate (cost : Nat → Fin 2 → ℚ) (vs : List cs_matrix_variant_t)
    (k : Fin 3) (j : Fin 2) (i : Nat) : Bool :=
  match vs[i]? with
  | none => false
  | some v => decide (0 < cost i j) && decide (hd_class v j = k)

/-- The claim's selection rule for one location class: an eligible variant
of minimum cost, the first one in scan (registration) order among the
minima. -/
def is_first_scan_minimum (cost : Nat → Fin 2 → ℚ)
    (vs : List cs_matrix_variant_t) (k : Fin 3) (j : Fin 2) (i : Nat) : Prop :=
  scan_candidate cost vs k j i = true
  ∧ (∀ i', scan_candidate cost vs k j i' = true → cost i j ≤ cost i' j)
  ∧ (∀ i', i' < i → scan_candidate cost vs k j i' = true → cost i j < cost i' j)

/-- Output-variant construction of `_matrix_tune_spmv_select`
(lines 322-337): slot `k` of the result gets the matrix fill type and, for
each operation type with a winner, the winner's name, kernel pointer and
location tag.  Fields with no winner keep whatever the freshly allocated
memory held (`init`). -/
def build_r_variant (m : cs_matrix_t) (vs : List cs_matrix_variant_t)
    (mc : Fin 3 → Fin 2 → Option Nat) (init : Fin 3 → cs_matrix_variant_t)
    (k : Fin 3) : cs_matrix_variant_t :=
  let o := init k
  { name := fun j =>
      match mc k j with
      | some i => match vs[i]? with
        | some mv => mv.name j
        | none => o.name j
      | none => o.name j
    fill_type := m.fill_type
    vector_multiply := fun j =>
      match mc k j with
      | some i => match vs[i]? with
        | some mv => mv.vector_multiply j
        | none => o.vector_multiply j
      | none => o.vector_multiply j
    vector_multiply_xy_hd := fun j =>
      match mc k j with
      | some i => match vs[i]? with
        | some mv => mv.vector_multiply_xy_hd j
        | none => o.vector_multiply_xy_hd j
      | none => o.vector_multiply_xy_hd j }

/-- `cs_matrix_variant_tuned` (lines 404-445).  `vs` is the variant list
produced by `cs_matrix_variant_build_list` (defined outside this layer);
`init` models the contents of the freshly allocated result slots; the middle
component counts kernel invocations (zero means no measurement run at all);
the last component is the caller's matrix after the call.  With more than
one variant the engine measures and selects; otherwise the sole variant is
copied verbatim into the first result slot (`memcpy`). -/
def cs_matrix_variant_tuned (have_accel : Bool) (device_id : Int)
    (m : cs_matrix_t) (n_measure : Int) (vs : List cs_matrix_variant_t)
    (measure : cs_matrix_t → Nat → Fin 2 → ℚ)
    (init : Fin 3 → cs_matrix_variant_t) :
    (Fin 3 → cs_matrix_variant_t) × Nat × cs_matrix_t :=
  let n_r_variants : Nat := if device_id > -1 then 3 else 1
  if vs.length > 1 then
    let cost := (_matrix_tune_test have_accel m n_measure vs measure).1
    let mc := _matrix_tune_spmv_select cost vs
    (fun k => if (k : Nat) < n_r_variants then build_r_variant m vs mc init k
              else init k,
     tune_kernel_runs have_accel m n_measure vs,
     m)
  else
    (fun k => if k = 0 then vs.headD (init 0) else init k, 0, m)

/-! ### Solver-parameter model (src/alge/cs_param_sles.c)

The enum types below list the constants referenced by the translated
functions; their declarations live in headers outside this layer. -/

/-- `cs_param_sles_class_t` (solver family); the `CS_PARAM_SLES_N_CLASSES`
sentinel is modelled with `Option`. -/
inductive cs_param_sles_class_t where
  | cs
  | hypre
  | mumps
  | petsc
deriving DecidableEq, Repr

/-- `cs_param_precond_type_t` constants used by this layer. -/
inductive cs_param_precond_type_t where
  | none
  | bjacob_ilu0
  | bjacob_sgs
  | diag
  | ilu0
  | icc0
  | ssor
  | lu
  | mumps
  | amg
  | poly1
  | poly2
deriving DecidableEq, Repr

/-- `cs_param_itsol_type_t` constants used by this layer. -/
inductive cs_param_itsol_type_t where
  | none
  | amg
  | bicg
  | bicgstab2
  | cg
  | fcg
  | fgmres
  | gauss_seidel
  | gcr
  | gkb_cg
  | gkb_gmres
  | gmres
  | jacobi
  | minres
  | mumps
  | sym_gauss_seidel
deriving DecidableEq, Repr

/-- `cs_param_amg_type_t` constants used by this layer. -/
inductive cs_param_amg_type_t where
  | none
  | hypre_boomer_v
  | hypre_boomer_w
  | petsc_gamg_v
  | petsc_gamg_w
  | petsc_pcmg
  | house_v
  | house_k
deriving DecidableEq, Repr

/-- `cs_param_precond_block_t` constants used by this layer. -/
inductive cs_param_precond_block_t where
  | none
  | diag
deriving DecidableEq, Repr

/-- `cs_param_resnorm_type_t`. -/
inductive cs_param_resnorm_t where
  | none
  | norm2_rhs
  | weighted_rhs
  | filtered_rhs
deriving DecidableEq, Repr

/-- `cs_param_sles_cvg_t`: convergence thresholds. -/
structure cs_param_sles_cvg_t where
  n_max_iter : Nat
  atol : ℚ
  rtol : ℚ
  dtol : ℚ
deriving DecidableEq, Repr

/-- Kind of the algorithm-specific sub-parameter block hanging off
`context_param`. -/
inductive param_context_kind where
  | mumps
  | boomer
deriving DecidableEq, Repr

/-- A heap-allocated sub-parameter block: `addr` is its address (used to
state non-aliasing), `payload` stands for its option fields. -/
structure param_context where
  addr : Nat
  kind : param_context_kind
  payload : Nat
deriving DecidableEq, Repr

/-- `cs_param_sles_t` (fields as assigned by `cs_param_sles_create`,
lines 2786-2823 of cs_param_sles.c). -/
structure cs_param_sles_t where
  name : Option String
  field_id : Int
  verbosity : Int
  setup_done : Bool
  solver_class : cs_param_sles_class_t
  precond : cs_param_precond_type_t
  solver : cs_param_itsol_type_t
  flexible : Bool
  restart : Int
  amg_type : cs_param_amg_type_t
  pcd_block_type : cs_param_precond_block_t
  resnorm_type : cs_param_resnorm_t
  cvg_param : cs_param_sles_cvg_t
  context_param : Option param_context
deriving DecidableEq, Repr

/-- `cs_param_sles_create` (lines 2786-2823): allocate a parameter set with
the default settings. -/
def cs_param_sles_create (field_id : Int) (system_name : Option String) :
    cs_param_sles_t :=
  { name := system_name
    field_id := field_id
    verbosity := 0
    setup_done := false
    solver_class := cs_param_sles_class_t.cs
    precond := cs_param_precond_type_t.diag
    solver := cs_param_itsol_type_t.gcr
    flexible := false
    restart := 15
    amg_type := cs_param_amg_type_t.none
    pcd_block_type := cs_param_precond_block_t.none
    resnorm_type := cs_param_resnorm_t.filtered_rhs
    cvg_param :=
      { n_max_iter := 10000
        atol := 1e-15
        rtol := 1e-6
        dtol := 1e3 }
    context_param := none }

/-- Modelled from the spec: `cs_param_mumps_copy` (cs_param_mumps.c, not in
this layer) returns a freshly allocated deep copy of a MUMPS sub-parameter
block; `fresh` is the address returned by the allocator. -/
def cs_param_mumps_copy (fresh : Nat) (src : Option param_context) :
    Option param_context :=
  src.map (fun c => { c with addr := fresh })

/-- Modelled from the spec: `cs_param_amg_boomer_copy` (cs_param_amg.c, not
in this layer) returns a freshly allocated deep copy of a BoomerAMG
sub-parameter block. -/
def cs_param_amg_boomer_copy (fresh : Nat) (src : Option param_context) :
    Option param_context :=
  src.map (fun c => { c with addr := fresh })

/-- Modelled from the spec: `cs_param_amg_boomer_is_needed` (cs_param_amg.c,
not in this layer) — the solver/preconditioner choice implies a BoomerAMG
sub-parameter block when an AMG solver or preconditioner is requested with a
BoomerAMG multigrid type. -/
def cs_param_amg_boomer_is_needed (solver : cs_param_itsol_type_t)
    (precond : cs_param_precond_type_t) (amg_type : cs_param_amg_type_t) :
    Bool :=
  (amg_type = cs_param_amg_type_t.hypre_boomer_v
    ∨ amg_type = cs_param_amg_type_t.hypre_boomer_w)
  ∧ (solver = cs_param_itsol_type_t.amg
    ∨ precond = cs_param_precond_type_t.amg)

/-- `cs_param_sles_copy_from` (lines 2977-3008): copy the listed scalar
fields, free the destination's sub-parameter block (`BFT_FREE` nulls the
pointer), then allocate a deep copy of the source block only when the
resulting solver/preconditioner choice implies it.  `fresh` is the address
handed out by the allocator for the copy. -/
def cs_param_sles_copy_from (src dst : cs_param_sles_t) (fresh : Nat) :
    cs_param_sles_t :=
  let dst := { dst with
    setup_done := src.setup_done
    verbosity := src.verbosity
    field_id := src.field_id
    solver_class := src.solver_class
    precond := src.precond
    solver := src.solver
    amg_type := src.amg_type
    pcd_block_type := src.pcd_block_type
    resnorm_type := src.resnorm_type
    cvg_param :=
      { rtol := src.cvg_param.rtol
        atol := src.cvg_param.atol
        dtol := src.cvg_param.dtol
        n_max_iter := src.cvg_param.n_max_iter } }
  let dst := { dst with context_param := none }
  if dst.precond = cs_param_precond_type_t.mumps
      ∨ dst.solver = cs_param_itsol_type_t.mumps then
    { dst with context_param := cs_param_mumps_copy fresh src.context_param }
  else if cs_param_amg_boomer_is_needed dst.solver dst.precond dst.amg_type then
    { dst with context_param := cs_param_amg_boomer_copy fresh src.context_param }
  else dst

/-- Preprocessor build configuration of the installation. -/
structure build_config where
  have_mumps : Bool
  have_petsc : Bool
  petsc_have_mumps : Bool
  have_hypre : Bool
  petsc_have_hypre : Bool
deriving DecidableEq, Repr

/-- `cs_param_sles_hypre_from_petsc` (lines 3375-3395). -/
def cs_param_sles_hypre_from_petsc (cfg : build_config) : Bool :=
  cfg.have_petsc && cfg.petsc_have_hypre

/-- `cs_param_sles_check_class` (lines 3409-3466): availability check with
documented substitution chains; `none` models the
`CS_PARAM_SLES_N_CLASSES` sentinel. -/
def cs_param_sles_check_class (cfg : build_config)
    (wanted_class : cs_param_sles_class_t) : Option cs_param_sles_class_t :=
  match wanted_class with
  | cs_param_sles_class_t.cs => some cs_param_sles_class_t.cs
  | cs_param_sles_class_t.hypre =>
    if cfg.have_hypre then some cs_param_sles_class_t.hypre
    else if cfg.have_petsc then
      (if cs_param_sles_hypre_from_petsc cfg then some cs_param_sles_class_t.hypre
       else some cs_param_sles_class_t.petsc)
    else none
  | cs_param_sles_class_t.petsc =>
    if cfg.have_petsc then some cs_param_sles_class_t.petsc else none
  | cs_param_sles_class_t.mumps =>
    if cfg.have_mumps then some cs_param_sles_class_t.mumps
    else if cfg.have_petsc && cfg.petsc_have_mumps then
      some cs_param_sles_class_t.petsc
    else none

/-- Diagnostics of the fatal aborts (`bft_error`) reachable from the
translated configuration code, with the payload each message interpolates. -/
inductive sles_error_t where
  | mumps_not_available (name : Option String)
  | mumps_class_inconsistent (name : Option String)
  | restart_too_small (name : Option String) (restart : Int)
  | invalid_amg_type_petsc (name : Option String)
  | precond_not_interfaced (name : Option String)
deriving DecidableEq, Repr

/-- `_check_settings` (lines 1566-1604): MUMPS consistency checks, then the
restart-interval check for GMRES/flexible GMRES/GCR. -/
def _check_settings (cfg : build_config) (slesp : cs_param_sles_t) :
    Except sles_error_t cs_param_sles_t :=
  let stage1 : Except sles_error_t cs_param_sles_t :=
    if slesp.solver = cs_param_itsol_type_t.mumps then
      match cs_param_sles_check_class cfg cs_param_sles_class_t.mumps with
      | none => Except.error (sles_error_t.mumps_not_available slesp.name)
      | some ret_class => Except.ok { slesp with solver_class := ret_class }
    else
      if slesp.solver_class = cs_param_sles_class_t.mumps then
        Except.error (sles_error_t.mumps_class_inconsistent slesp.name)
      else Except.ok slesp
  match stage1 with
  | Except.error e => Except.error e
  | Except.ok s =>
    if (s.solver = cs_param_itsol_type_t.gmres
        ∨ s.solver = cs_param_itsol_type_t.fgmres
        ∨ s.solver = cs_param_itsol_type_t.gcr)
        ∧ s.restart < 2 then
      Except.error (sles_error_t.restart_too_small s.name s.restart)
    else Except.ok s

/-- `cs_param_sles_set` (lines 3025-3083): validate the settings, then
dispatch the backend configuration according to the solver class.  The
backend setup calls (`_set_saturne_sles` etc.) are abstracted in this layer;
the returned class records which backend family was dispatched.  A fatal
validation diagnostic is raised before any dispatch happens. -/
def cs_param_sles_set (cfg : build_config) (slesp : cs_param_sles_t) :
    Except sles_error_t (cs_param_sles_t × cs_param_sles_class_t) :=
  match _check_settings cfg slesp with
  | Except.error e => Except.error e
  | Except.ok s => Except.ok (s, s.solver_class)

/-- Observable actions of `_petsc_set_pc_type`: PETSc preconditioner calls,
command-line style options, the predefined hook routines (whose bodies are
fixed `_petsc_cmd` sequences) and the logged warnings. -/
inductive pc_action_t where
  | pc_set_type (t : String)
  | pc_hypre_set_type (t : String)
  | petsc_cmd (key : String) (val : String)
  | pc_factor_set_levels (n : Int)
  | pc_sor_set_symmetric
  | bilu0_hook
  | bicc0_hook
  | bssor_hook
  | pcgamg_hook (is_symm : Bool)
  | pchypre_hook (is_symm : Bool)
  | warn_switch_to_block_jacobi
  | warn_boomer_to_gamg
  | pc_setup
deriving DecidableEq, Repr

/-- `_system_should_be_sym` (lines 106-121). -/
def _system_should_be_sym (solver : cs_param_itsol_type_t) : Bool :=
  match solver with
  | cs_param_itsol_type_t.cg => true
  | cs_param_itsol_type_t.fcg => true
  | cs_param_itsol_type_t.gkb_cg => true
  | cs_param_itsol_type_t.gkb_gmres => true
  | cs_param_itsol_type_t.minres => true
  | _ => false

/-- `_petsc_set_pc_type` (lines 704-887): translate the preconditioner
request into PETSc actions.  Returns the (possibly modified) parameter set
and the action trace; `bft_error` aborts are `Except.error`.  `n_ranks` is
`cs_glob_n_ranks`. -/
def _petsc_set_pc_type (cfg : build_config) (n_ranks : Nat)
    (slesp : cs_param_sles_t) :
    Except sles_error_t (cs_param_sles_t × List pc_action_t) :=
  if slesp.solver = cs_param_itsol_type_t.mumps then
    Except.ok (slesp, [])
  else
    let tail := [pc_action_t.pc_setup]
    match slesp.precond with
    | cs_param_precond_type_t.none =>
      Except.ok (slesp, [pc_action_t.pc_set_type "none"] ++ tail)
    | cs_param_precond_type_t.diag =>
      Except.ok (slesp, [pc_action_t.pc_set_type "jacobi"] ++ tail)
    | cs_param_precond_type_t.bjacob_ilu0 =>
      if slesp.solver_class = cs_param_sles_class_t.hypre
          ∧ cfg.petsc_have_hypre = true then
        Except.ok (slesp,
          [pc_action_t.pc_set_type "hypre",
           pc_action_t.pc_hypre_set_type "euclid",
           pc_action_t.petsc_cmd "pc_euclid_level" "0"] ++ tail)
      else
        Except.ok (slesp, [pc_action_t.bilu0_hook] ++ tail)
    | cs_param_precond_type_t.bjacob_sgs =>
      Except.ok (slesp, [pc_action_t.bssor_hook] ++ tail)
    | cs_param_precond_type_t.ssor =>
      if n_ranks > 1 then
        Except.ok ({ slesp with precond := cs_param_precond_type_t.bjacob_sgs },
          [pc_action_t.warn_switch_to_block_jacobi,
           pc_action_t.bssor_hook] ++ tail)
      else
        Except.ok (slesp,
          [pc_action_t.pc_set_type "sor",
           pc_action_t.pc_sor_set_symmetric] ++ tail)
    | cs_param_precond_type_t.icc0 =>
      if n_ranks > 1 then
        Except.ok (slesp,
          [pc_action_t.warn_switch_to_block_jacobi,
           pc_action_t.bicc0_hook] ++ tail)
      else
        Except.ok (slesp,
          [pc_action_t.pc_set_type "icc",
           pc_action_t.pc_factor_set_levels 0] ++ tail)
    | cs_param_precond_type_t.ilu0 =>
      if slesp.solver_class = cs_param_sles_class_t.hypre then
        if cfg.petsc_have_hypre then
          Except.ok (slesp,
            [pc_action_t.pc_set_type "hypre",
             pc_action_t.pc_hypre_set_type "euclid",
             pc_action_t.petsc_cmd "pc_euclid_level" "0"] ++ tail)
        else
          if n_ranks > 1 then
            Except.ok ({ slesp with
                precond := cs_param_precond_type_t.bjacob_ilu0 },
              [pc_action_t.bilu0_hook] ++ tail)
          else
            Except.ok (slesp, [pc_action_t.bilu0_hook] ++ tail)
      else
        if n_ranks > 1 then
          Except.ok ({ slesp with
              precond := cs_param_precond_type_t.bjacob_ilu0 },
            [pc_action_t.bilu0_hook,
             pc_action_t.warn_switch_to_block_jacobi] ++ tail)
        else
          Except.ok (slesp, [pc_action_t.bilu0_hook] ++ tail)
    | cs_param_precond_type_t.lu =>
      if cfg.petsc_have_mumps then
        Except.ok (slesp,
          [pc_action_t.petsc_cmd "pc_type" "lu",
           pc_action_t.petsc_cmd "pc_factor_mat_solver_type" "mumps"] ++ tail)
      else
        if n_ranks = 1 then
          Except.ok (slesp, [pc_action_t.petsc_cmd "pc_type" "lu"] ++ tail)
        else
          Except.ok (slesp,
            [pc_action_t.petsc_cmd "pc_type" "bjacobi",
             pc_action_t.petsc_cmd "pc_jacobi_blocks" "1",
             pc_action_t.petsc_cmd "sub_ksp_type" "preonly",
             pc_action_t.petsc_cmd "sub_pc_type" "lu"] ++ tail)
    | cs_param_precond_type_t.mumps =>
      if cfg.petsc_have_mumps then
        Except.ok (slesp,
          [pc_action_t.petsc_cmd "pc_type" "lu",
           pc_action_t.petsc_cmd "pc_factor_mat_solver_type" "mumps"] ++ tail)
      else
        Except.error (sles_error_t.precond_not_interfaced slesp.name)
    | cs_param_precond_type_t.amg =>
      let is_symm := _system_should_be_sym slesp.solver
      match slesp.amg_type with
      | cs_param_amg_type_t.petsc_gamg_v =>
        Except.ok (slesp, [pc_action_t.pcgamg_hook is_symm] ++ tail)
      | cs_param_amg_type_t.petsc_gamg_w =>
        Except.ok (slesp, [pc_action_t.pcgamg_hook is_symm] ++ tail)
      | cs_param_amg_type_t.petsc_pcmg =>
        Except.ok (slesp, [pc_action_t.pcgamg_hook is_symm] ++ tail)
      | cs_param_amg_type_t.hypre_boomer_v =>
        if cs_param_sles_hypre_from_petsc cfg then
          Except.ok (slesp, [pc_action_t.pchypre_hook is_symm] ++ tail)
        else
          Except.ok (slesp,
            [pc_action_t.warn_boomer_to_gamg,
             pc_action_t.pcgamg_hook is_symm] ++ tail)
      | cs_param_amg_type_t.hypre_boomer_w =>
        if cs_param_sles_hypre_from_petsc cfg then
          Except.ok (slesp, [pc_action_t.pchypre_hook is_symm] ++ tail)
        else
          Except.ok (slesp,
            [pc_action_t.warn_boomer_to_gamg,
             pc_action_t.pcgamg_hook is_symm] ++ tail)
      | _ => Except.error (sles_error_t.invalid_amg_type_petsc slesp.name)
    | _ => Except.error (sles_error_t.precond_not_interfaced slesp.name)

/-! ### Test fixtures used by witnesses and counterexamples -/

/-- A build configuration with every optional library available. -/
def cfg_all : build_config :=
  { have_mumps := true, have_petsc := true, petsc_have_mumps := true,
    have_hypre := true, petsc_have_hypre := true }

/-- A device-tagged variant with registered kernels (scan index 0 in the
fixtures). -/
def variant_dev : cs_matrix_variant_t :=
  { name := fun _ => "k_dev", fill_type := 0,
    vector_multiply := fun _ => some 0,
    vector_multiply_xy_hd := fun _ => 'd' }

/-- A host-tagged variant with registered kernels. -/
def variant_host : cs_matrix_variant_t :=
  { name := fun _ => "k_host", fill_type := 0,
    vector_multiply := fun _ => some 1,
    vector_multiply_xy_hd := fun _ => 'h' }

/-- A host-tagged variant with no kernel registered for operation type 1. -/
def variant_host_missing_op1 : cs_matrix_variant_t :=
  { name := fun _ => "k_host2", fill_type := 0,
    vector_multiply := fun j => if j = 0 then some 2 else none,
    vector_multiply_xy_hd := fun _ => 'h' }

/-- The constant cost array (all variants report identical cost). -/
def cost_one : Nat → Fin 2 → ℚ := fun _ _ => 1

/-- A host-allocated matrix fixture. -/
def matrix_host : cs_matrix_t :=
  { fill_type := 0, alloc_mode := cs_alloc_mode_t.host,
    vector_multiply := fun _ _ => some 9,
    vector_multiply_h := fun _ _ => none,
    vector_multiply_d := fun _ _ => none }

/-- A constant measurement oracle. -/
def measure_one : cs_matrix_t → Nat → Fin 2 → ℚ := fun _ _ _ => 1

/-! ### Theorems -/

/-- C1: `_cvg_test` first increments the outer iteration counter by exactly
one, then sets the status in the claim's case order (converged below
`max(atol, rtol*res0)`, else max-iteration at the cap, else diverged above
`dtol` times the residual the test was entered with, else iterating), and
returns `true` exactly when the resulting status is still iterating. -/
theorem cvg_test_spec (info : cs_iter_algo_info_t) :
    (_cvg_test info).1.n_algo_iter = info.n_algo_iter + 1
    ∧ (_cvg_test info).1.cvg = claimed_cvg_status info
    ∧ ((_cvg_test info).2 = true ↔
        (_cvg_test info).1.cvg = cs_sles_convergence_state_t.iterating) := by
  have hmax : max (info.rtol * info.res0) info.atol
      = max info.atol (info.rtol * info.res0) := max_comm _ _
  refine ⟨rfl, ?_, ?_⟩
  · simp only [_cvg_test, claimed_cvg_status, hmax]
  · simp only [_cvg_test]
    split <;> simp_all

/-- C4: `cs_param_sles_create` returns the documented defaults for every
field id and system name: code_saturne solver family, GCR with restart 15,
diagonal preconditioner, no AMG type, `max_iter = 10000`, `atol = 1e-15`,
`rtol = 1e-6`, `dtol = 1e3`, `setup_done = false` and a null
algorithm-specific sub-parameter block. -/
theorem cs_param_sles_create_defaults (field_id : Int)
    (system_name : Option String) :
    (cs_param_sles_create field_id system_name).solver_class
        = cs_param_sles_class_t.cs
    ∧ (cs_param_sles_create field_id system_name).solver
        = cs_param_itsol_type_t.gcr
    ∧ (cs_param_sles_create field_id system_name).restart = 15
    ∧ (cs_param_sles_create field_id system_name).precond
        = cs_param_precond_type_t.diag
    ∧ (cs_param_sles_create field_id system_name).amg_type
        = cs_param_amg_type_t.none
    ∧ (cs_param_sles_create field_id system_name).cvg_param.n_max_iter = 10000
    ∧ (cs_param_sles_create field_id system_name).cvg_param.atol = 1e-15
    ∧ (cs_param_sles_create field_id system_name).cvg_param.rtol = 1e-6
    ∧ (cs_param_sles_create field_id system_name).cvg_param.dtol = 1e3
    ∧ (cs_param_sles_create field_id system_name).setup_done = false
    ∧ (cs_param_sles_create field_id system_name).context_param = none :=
  ⟨rfl, rfl, rfl, rfl, rfl, rfl, rfl, rfl, rfl, rfl, rfl⟩

/-- C3: when the variant-build step produces a single registered variant,
`cs_matrix_variant_tuned` performs no kernel run at all (neither untimed nor
timed) and copies that sole variant verbatim into the result slot. -/
theorem cs_matrix_variant_tuned_single (have_accel : Bool) (device_id : Int)
    (m : cs_matrix_t) (n_measure : Int) (v : cs_matrix_variant_t)
    (measure : cs_matrix_t → Nat → Fin 2 → ℚ)
    (init : Fin 3 → cs_matrix_variant_t) :
    (cs_matrix_variant_tuned have_accel device_id m n_measure [v] measure
        init).1 0 = v
    ∧ (cs_matrix_variant_tuned have_accel device_id m n_measure [v] measure
        init).2.1 = 0 := by
  constructor <;> simp [cs_matrix_variant_tuned]

/-- C9: the tuning engine does not mutate the caller's matrix: all kernel
rewiring happens on the local copy (`tune_rewire`), and both
`_matrix_tune_test` and `cs_matrix_variant_tuned` leave the caller's matrix
exactly as it was. -/
theorem tuning_leaves_matrix_unchanged (have_accel : Bool) (device_id : Int)
    (m : cs_matrix_t) (n_measure : Int) (vs : List cs_matrix_variant_t)
    (measure : cs_matrix_t → Nat → Fin 2 → ℚ)
    (init : Fin 3 → cs_matrix_variant_t) :
    (_matrix_tune_test have_accel m n_measure vs measure).2 = m
    ∧ (cs_matrix_variant_tuned have_accel device_id m n_measure vs measure
        init).2.2 = m := by
  refine ⟨rfl, ?_⟩
  by_cases h : vs.length > 1 <;> simp [cs_matrix_variant_tuned, h]

/-! #### Helper lemmas for the `min_c` scan loop -/

theorem scan_candidate_true_iff (cost : Nat → Fin 2 → ℚ)
    (vs : List cs_matrix_variant_t) (k : Fin 3) (j : Fin 2) (i : Nat) :
    scan_candidate cost vs k j i = true
      ↔ ∃ v, vs[i]? = some v ∧ 0 < cost i j ∧ hd_class v j = k := by
  unfold scan_candidate
  cases h : vs[i]? <;> simp

theorem scan_candidate_lt_length (cost : Nat → Fin 2 → ℚ)
    (vs : List cs_matrix_variant_t) (k : Fin 3) (j : Fin 2) (i : Nat)
    (h : scan_candidate cost vs k j i = true) : i < vs.length := by
  rcases (scan_candidate_true_iff cost vs k j i).1 h with ⟨v, hv, -, -⟩
  exact (List.getElem?_eq_some.1 hv).1

theorem min_c_scan_upto_succ (cost : Nat → Fin 2 → ℚ)
    (vs : List cs_matrix_variant_t) (n : Nat) :
    min_c_scan_upto cost vs (n + 1)
      = min_c_update cost vs (min_c_scan_upto cost vs n) n := by
  unfold min_c_scan_upto
  rw [List.range_succ, List.foldl_append, List.foldl_cons, List.foldl_nil]

/-- Loop invariant of the `min_c` scan: a selected index is an eligible
index of minimum cost among those already scanned, strictly cheaper than
every earlier eligible index; an empty slot means no index scanned so far
was eligible. -/
theorem min_c_scan_upto_spec (cost : Nat → Fin 2 → ℚ)
    (vs : List cs_matrix_variant_t) (n : Nat) (k : Fin 3) (j : Fin 2) :
    (∀ i, min_c_scan_upto cost vs n k j = some i →
        scan_candidate cost vs k j i = true ∧ i < n
        ∧ (∀ i', i' < n → scan_candidate cost vs k j i' = true →
            cost i j ≤ cost i' j)
        ∧ (∀ i', i' < i → scan_candidate cost vs k j i' = true →
            cost i j < cost i' j))
    ∧ (min_c_scan_upto cost vs n k j = none →
        ∀ i', i' < n → scan_candidate cost vs k j i' = false) := by
  induction n with
  | zero =>
    constructor
    · intro i h
      simp [min_c_scan_upto] at h
    · intro _ i' hi'
      exact absurd hi' (Nat.not_lt_zero _)
  | succ n ih =>
    rw [min_c_scan_upto_succ]
    unfold min_c_update
    cases hvn : vs[n]? with
    | none =>
      have hcn : scan_candidate cost vs k j n = false := by
        unfold scan_candidate
        rw [hvn]
      constructor
      · intro i h
        simp only [hvn] at h
        rcases ih.1 i h with ⟨h1, h2, h3, h4⟩
        refine ⟨h1, Nat.lt_succ_of_lt h2, ?_, h4⟩
        intro i' hi' hc
        rcases Nat.lt_succ_iff_lt_or_eq.1 hi' with hlt | heq
        · exact h3 i' hlt hc
        · subst heq
          rw [hcn] at hc
          exact absurd hc (by simp)
      · intro h i' hi' 
        simp only [hvn] at h
        rcases Nat.lt_succ_iff_lt_or_eq.1 hi' with hlt | heq
        · exact ih.2 h i' hlt
        · subst heq
          exact hcn
    | some v =>
      by_cases hcond : 0 < cost n j ∧ k = hd_class v j
      · have hcn : scan_candidate cost vs k j n = true := by
          refine (scan_candidate_true_iff cost vs k j n).2 ⟨v, hvn, hcond.1, hcond.2.symm⟩
        cases hmc : min_c_scan_upto cost vs n k j with
        | none =>
          have hnone := ih.2 hmc
          constructor
          · intro i h
            simp only [hvn, hmc, if_pos hcond] at h
            have hin : i = n := (Option.some_inj.mp h).symm
            subst hin
            refine ⟨hcn, Nat.lt_succ_self _, ?_, ?_⟩
            · intro i' hi' hc
              rcases Nat.lt_succ_iff_lt_or_eq.1 hi' with hlt | heq
              · rw [hnone i' hlt] at hc
                exact absurd hc (by simp)
              · subst heq
                exact le_refl _
            · intro i' hi' hc
              rw [hnone i' hi'] at hc
              exact absurd hc (by simp)
          · intro h
            simp only [hvn, hmc, if_pos hcond] at h
            exact absurd h (by simp)
        | some p =>
          rcases ih.1 p hmc with ⟨hp1, hp2, hp3, hp4⟩
          by_cases hlt : cost n j < cost p j
          · constructor
            · intro i h
              simp only [hvn, hmc, if_pos hcond, if_pos hlt] at h
              have hin : i = n := (Option.some_inj.mp h).symm
              subst hin
              refine ⟨hcn, Nat.lt_succ_self _, ?_, ?_⟩
              · intro i' hi' hc
                rcases Nat.lt_succ_iff_lt_or_eq.1 hi' with hl | heq
                · exact le_of_lt (lt_of_lt_of_le hlt (hp3 i' hl hc))
                · subst heq
                  exact le_refl _
              · intro i' hi' hc
                exact lt_of_lt_of_le hlt (hp3 i' hi' hc)
            · intro h
              simp only [hvn, hmc, if_pos hcond, if_pos hlt] at h
              exact absurd h (by simp)
          · constructor
            · intro i h
              simp only [hvn, hmc, if_pos hcond, if_neg hlt] at h
              have hin : i = p := (Option.some_inj.mp h).symm
              subst hin
              refine ⟨hp1, Nat.lt_succ_of_lt hp2, ?_, hp4⟩
              intro i' hi' hc
              rcases Nat.lt_succ_iff_lt_or_eq.1 hi' with hl | heq
              · exact hp3 i' hl hc
              · subst heq
                exact le_of_not_lt hlt
            · intro h
              simp only [hvn, hmc, if_pos hcond, if_neg hlt] at h
              exact absurd h (by simp)
      · have hcn : scan_candidate cost vs k j n = false := by
          rw [Bool.eq_false_iff]
          intro hc
          rcases (scan_candidate_true_iff cost vs k j n).1 hc with ⟨v', hv', hpos, hcls⟩
          rw [hvn] at hv'
          have : v' = v := (Option.some_inj.mp hv').symm
          subst this
          exact hcond ⟨hpos, hcls.symm⟩
        constructor
        · intro i h
          simp only [hvn, if_neg hcond] at h
          rcases ih.1 i h with ⟨h1, h2, h3, h4⟩
          refine ⟨h1, Nat.lt_succ_of_lt h2, ?_, h4⟩
          intro i' hi' hc
          rcases Nat.lt_succ_iff_lt_or_eq.1 hi' with hlt | heq
          · exact h3 i' hlt hc
          · subst heq
            rw [hcn] at hc
            exact absurd hc (by simp)
        · intro h i' hi'
          simp only [hvn, if_neg hcond] at h
          rcases Nat.lt_succ_iff_lt_or_eq.1 hi' with hlt | heq
          · exact ih.2 h i' hlt
          · subst heq
            exact hcn

theorem hd_class_ne_zero (v : cs_matrix_variant_t) (j : Fin 2) :
    hd_class v j ≠ 0 := by
  unfold hd_class
  split <;> decide

theorem min_c_scan_some (cost : Nat → Fin 2 → ℚ)
    (vs : List cs_matrix_variant_t) (k : Fin 3) (j : Fin 2) (i : Nat)
    (h : min_c_scan cost vs k j = some i) :
    is_first_scan_minimum cost vs k j i := by
  rcases (min_c_scan_upto_spec cost vs vs.length k j).1 i h with ⟨h1, -, h3, h4⟩
  exact ⟨h1, fun i' hc => h3 i' (scan_candidate_lt_length cost vs k j i' hc) hc, h4⟩

theorem min_c_scan_none (cost : Nat → Fin 2 → ℚ)
    (vs : List cs_matrix_variant_t) (k : Fin 3) (j : Fin 2)
    (h : min_c_scan cost vs k j = none) (i : Nat) :
    scan_candidate cost vs k j i = false := by
  by_cases hi : i < vs.length
  · exact (min_c_scan_upto_spec cost vs vs.length k j).2 h i hi
  · unfold scan_candidate
    rw [List.getElem?_eq_none (le_of_not_lt hi)]

theorem min_c_scan_class_zero (cost : Nat → Fin 2 → ℚ)
    (vs : List cs_matrix_variant_t) (j : Fin 2) :
    min_c_scan cost vs 0 j = none := by
  cases h : min_c_scan cost vs 0 j with
  | none => rfl
  | some i =>
    rcases (scan_candidate_true_iff cost vs 0 j i).1
        (min_c_scan_some cost vs 0 j i h).1 with ⟨v, -, -, hcl⟩
    exact absurd hcl (hd_class_ne_zero v j)

theorem min_c_merge_combined (cost : Nat → Fin 2 → ℚ)
    (vs : List cs_matrix_variant_t) (j : Fin 2) :
    _matrix_tune_spmv_select cost vs 0 j =
      (match min_c_scan cost vs 1 j, min_c_scan cost vs 2 j with
       | some h, some d => if cost d j < cost h j then some d else some h
       | some h, none => some h
       | none, some d => some d
       | none, none => none) := by
  have h0 := min_c_scan_class_zero cost vs j
  unfold _matrix_tune_spmv_select min_c_merge
  cases h1 : min_c_scan cost vs 1 j <;> cases h2 : min_c_scan cost vs 2 j <;>
    simp [h0, h1, h2]

theorem min_c_merge_other (cost : Nat → Fin 2 → ℚ)
    (vs : List cs_matrix_variant_t) (k : Fin 3) (j : Fin 2) (hk : k ≠ 0) :
    _matrix_tune_spmv_select cost vs k j = min_c_scan cost vs k j := by
  unfold _matrix_tune_spmv_select min_c_merge
  simp [hk]

theorem select_some_candidate (cost : Nat → Fin 2 → ℚ)
    (vs : List cs_matrix_variant_t) (k : Fin 3) (j : Fin 2) (i : Nat)
    (h : _matrix_tune_spmv_select cost vs k j = some i) :
    scan_candidate cost vs 1 j i = true ∨ scan_candidate cost vs 2 j i = true := by
  by_cases hk : k = 0
  · subst hk
    rw [min_c_merge_combined] at h
    cases h1 : min_c_scan cost vs 1 j with
    | none =>
      cases h2 : min_c_scan cost vs 2 j with
      | none => rw [h1, h2] at h; exact absurd h (by simp)
      | some d =>
        rw [h1, h2] at h
        have : d = i := Option.some_inj.mp h
        subst this
        exact Or.inr (min_c_scan_some cost vs 2 j d h2).1
    | some p =>
      cases h2 : min_c_scan cost vs 2 j with
      | none =>
        rw [h1, h2] at h
        have : p = i := Option.some_inj.mp h
        subst this
        exact Or.inl (min_c_scan_some cost vs 1 j p h1).1
      | some d =>
        rw [h1, h2] at h
        have h' : (if cost d j < cost p j then some d else some p) = some i := h
        by_cases hlt : cost d j < cost p j
        · rw [if_pos hlt] at h'
          have : d = i := Option.some_inj.mp h'
          subst this
          exact Or.inr (min_c_scan_some cost vs 2 j d h2).1
        · rw [if_neg hlt] at h'
          have : p = i := Option.some_inj.mp h'
          subst this
          exact Or.inl (min_c_scan_some cost vs 1 j p h1).1
  · rw [min_c_merge_other cost vs k j hk] at h
    have hc := (min_c_scan_some cost vs k j i h).1
    rcases (scan_candidate_true_iff cost vs k j i).1 hc with ⟨v, hv, hpos, hcl⟩
    cases hdc : hd_class v j with
    | mk kv hkv =>
      have : k = hd_class v j := hcl.symm
      rw [hdc] at this
      subst this
      unfold hd_class at hdc
      split at hdc
      · right
        refine (scan_candidate_true_iff cost vs 2 j i).2 ⟨v, hv, hpos, ?_⟩
        rw [hcl, ← hdc]
      · left
        refine (scan_candidate_true_iff cost vs 1 j i).2 ⟨v, hv, hpos, ?_⟩
        rw [hcl, ← hdc]

theorem scan_candidate_pos (cost : Nat → Fin 2 → ℚ)
    (vs : List cs_matrix_variant_t) (k : Fin 3) (j : Fin 2) (i : Nat)
    (h : scan_candidate cost vs k j i = true) : 0 < cost i j := by
  rcases (scan_candidate_true_iff cost vs k j i).1 h with ⟨v, -, hpos, -⟩
  exact hpos

/-- C2 (amended): per operation type, the host-only and device-only slots of
`_matrix_tune_spmv_select` receive the eligible variant of minimum measured
cost, ties resolved to the first in scan (registration) order; the combined
slot receives the device optimum only when strictly cheaper than the host
optimum — on equal cost the host optimum wins, not necessarily the
first-registered variant — and its winner has minimal cost among all
eligible variants of both location classes. -/
theorem matrix_tune_spmv_select_spec (cost : Nat → Fin 2 → ℚ)
    (vs : List cs_matrix_variant_t) :
    (∀ (k : Fin 3), k ≠ 0 → ∀ (j : Fin 2),
        _matrix_tune_spmv_select cost vs k j = min_c_scan cost vs k j)
    ∧ (∀ (k : Fin 3) (j : Fin 2) (i : Nat),
        min_c_scan cost vs k j = some i → is_first_scan_minimum cost vs k j i)
    ∧ (∀ (j : Fin 2) (i_h i_d : Nat),
        min_c_scan cost vs 1 j = some i_h → min_c_scan cost vs 2 j = some i_d →
        _matrix_tune_spmv_select cost vs 0 j
          = if cost i_d j < cost i_h j then some i_d else some i_h)
    ∧ (∀ (j : Fin 2) (i_h : Nat),
        min_c_scan cost vs 1 j = some i_h → min_c_scan cost vs 2 j = none →
        _matrix_tune_spmv_select cost vs 0 j = some i_h)
    ∧ (∀ (j : Fin 2) (i_d : Nat),
        min_c_scan cost vs 1 j = none → min_c_scan cost vs 2 j = some i_d →
        _matrix_tune_spmv_select cost vs 0 j = some i_d)
    ∧ (∀ (j : Fin 2) (i : Nat),
        _matrix_tune_spmv_select cost vs 0 j = some i →
        ∀ i', (scan_candidate cost vs 1 j i' || scan_candidate cost vs 2 j i')
              = true →
          cost i j ≤ cost i' j) := by
  refine ⟨?_, ?_, ?_, ?_, ?_, ?_⟩
  · intro k hk j
    exact min_c_merge_other cost vs k j hk
  · intro k j i h
    exact min_c_scan_some cost vs k j i h
  · intro j i_h i_d h1 h2
    rw [min_c_merge_combined, h1, h2]
  · intro j i_h h1 h2
    rw [min_c_merge_combined, h1, h2]
  · intro j i_d h1 h2
    rw [min_c_merge_combined, h1, h2]
  · intro j i hsel i' hc
    rw [min_c_merge_combined] at hsel
    rcases Bool.or_eq_true_iff.mp hc with hc1 | hc2
    · have h1 : ∃ p, min_c_scan cost vs 1 j = some p := by
        cases hh : min_c_scan cost vs 1 j with
        | none => rw [min_c_scan_none cost vs 1 j hh i'] at hc1; exact absurd hc1 (by simp)
        | some p => exact ⟨p, rfl⟩
      rcases h1 with ⟨p, hp⟩
      have hple : cost p j ≤ cost i' j :=
        (min_c_scan_some cost vs 1 j p hp).2.1 i' hc1
      rw [hp] at hsel
      cases h2 : min_c_scan cost vs 2 j with
      | none =>
        rw [h2] at hsel
        have : p = i := Option.some_inj.mp hsel
        subst this
        exact hple
      | some d =>
        rw [h2] at hsel
        have hsel' : (if cost d j < cost p j then some d else some p) = some i :=
          hsel
        by_cases hlt : cost d j < cost p j
        · rw [if_pos hlt] at hsel'
          have : d = i := Option.some_inj.mp hsel'
          subst this
          exact le_of_lt (lt_of_lt_of_le hlt hple)
        · rw [if_neg hlt] at hsel'
          have : p = i := Option.some_inj.mp hsel'
          subst this
          exact hple
    · have h2 : ∃ d, min_c_scan cost vs 2 j = some d := by
        cases hh : min_c_scan cost vs 2 j with
        | none => rw [min_c_scan_none cost vs 2 j hh i'] at hc2; exact absurd hc2 (by simp)
        | some d => exact ⟨d, rfl⟩
      rcases h2 with ⟨d, hd⟩
      have hdle : cost d j ≤ cost i' j :=
        (min_c_scan_some cost vs 2 j d hd).2.1 i' hc2
      rw [hd] at hsel
      cases h1 : min_c_scan cost vs 1 j with
      | none =>
        rw [h1] at hsel
        have : d = i := Option.some_inj.mp hsel
        subst this
        exact hdle
      | some p =>
        rw [h1] at hsel
        have hsel' : (if cost d j < cost p j then some d else some p) = some i :=
          hsel
        by_cases hlt : cost d j < cost p j
        · rw [if_pos hlt] at hsel'
          have : d = i := Option.some_inj.mp hsel'
          subst this
          exact hdle
        · rw [if_neg hlt] at hsel'
          have : p = i := Option.some_inj.mp hsel'
          subst this
          exact le_of_not_lt hlt |>.trans hdle

/-- C2 counterexample: with a device-tagged variant registered first and a
host-tagged variant second, all costs identical, the combined slot selects
the host variant (index 1) for both operation types, not the
first-registered variant (index 0), although index 0 has the same minimal
cost. -/
theorem matrix_tune_spmv_select_tie_counterexample :
    _matrix_tune_spmv_select cost_one [variant_dev, variant_host] 0 0 = some 1
    ∧ _matrix_tune_spmv_select cost_one [variant_dev, variant_host] 0 1 = some 1
    ∧ cost_one 0 0 = cost_one 1 0
    ∧ _matrix_tune_spmv_select cost_one [variant_dev, variant_host] 0 0
        ≠ some 0 := by
  refine ⟨by decide, by decide, rfl, by decide⟩

/-- C2 witness: the amended selection rule evaluated on the two-variant
fixture — index 1 is the first scan-order minimum of the host class for
operation type 0. -/
theorem matrix_tune_spmv_select_spec_witness :
    is_first_scan_minimum cost_one [variant_dev, variant_host] 1 0 1 :=
  (matrix_tune_spmv_select_spec cost_one [variant_dev, variant_host]).2.1
    1 0 1 (by decide)

/-- C10: (a) a (variant, operation type) pair with no registered kernel, or
(with accelerator support) a device-tagged variant on a host-allocated
matrix, keeps cost `-1` in the array produced by `_matrix_tune_test`;
(b) the selection step only ever returns an index whose cost entry is
strictly positive, for any cost array; (c) hence a pair whose entry is `-1`
is never selected as a winner for any location class at that operation
type. -/
theorem tune_cost_unmeasured_never_selected (have_accel : Bool)
    (m : cs_matrix_t) (n_measure : Int) (vs : List cs_matrix_variant_t)
    (measure : cs_matrix_t → Nat → Fin 2 → ℚ) :
    (∀ (i : Nat) (op : Fin 2) (v : cs_matrix_variant_t), vs[i]? = some v →
        (v.vector_multiply op = none
          ∨ (have_accel = true ∧ m.alloc_mode = cs_alloc_mode_t.host
              ∧ v.vector_multiply_xy_hd 0 = 'd')) →
        (_matrix_tune_test have_accel m n_measure vs measure).1 i op = -1)
    ∧ (∀ (cost : Nat → Fin 2 → ℚ) (k : Fin 3) (j : Fin 2) (i : Nat),
        _matrix_tune_spmv_select cost vs k j = some i → 0 < cost i j)
    ∧ (∀ (i : Nat) (op : Fin 2),
        (_matrix_tune_test have_accel m n_measure vs measure).1 i op = -1 →
        ∀ k : Fin 3,
          _matrix_tune_spmv_select
            ((_matrix_tune_test have_accel m n_measure vs measure).1) vs k op
            ≠ some i) := by
  have hpos : ∀ (cost : Nat → Fin 2 → ℚ) (k : Fin 3) (j : Fin 2) (i : Nat),
      _matrix_tune_spmv_select cost vs k j = some i → 0 < cost i j := by
    intro cost k j i h
    rcases select_some_candidate cost vs k j i h with hc | hc
    · exact scan_candidate_pos cost vs 1 j i hc
    · exact scan_candidate_pos cost vs 2 j i hc
  refine ⟨?_, hpos, ?_⟩
  · intro i op v hv hbad
    show spmv_cost_entry have_accel m measure n_measure vs i op = -1
    rcases hbad with hnone | ⟨ha, hm, hd⟩
    · simp only [spmv_cost_entry, hv, hnone]
    · cases hk : v.vector_multiply op with
      | none => simp only [spmv_cost_entry, hv, hk]
      | some kern =>
        simp only [spmv_cost_entry, hv, hk]
        rw [if_pos ⟨ha, hm, hd⟩]
  · intro i op hneg k hsel
    have := hpos _ k op i hsel
    rw [hneg] at this
    exact absurd this (by norm_num)

/-- C10 witness: on the fixture list, variant 1 has no kernel for operation
type 1, its cost entry is `-1`, and it is not selected for the combined slot
at that operation type. -/
theorem tune_cost_unmeasured_never_selected_witness :
    ¬ _matrix_tune_spmv_select
        ((_matrix_tune_test true matrix_host 3
          [variant_host, variant_host_missing_op1] measure_one).1)
        [variant_host, variant_host_missing_op1] 0 1 = some 1 :=
  (tune_cost_unmeasured_never_selected true matrix_host 3
      [variant_host, variant_host_missing_op1] measure_one).2.2 1 1 (by decide) 0

/-- C5 (amended): for a parameter set whose solver is GMRES, flexible GMRES
or GCR with restart length below 2, and whose solver class is not the
(inconsistent) MUMPS class, `_check_settings` aborts fatally with the
diagnostic carrying the system name and the offending restart value, and
`cs_param_sles_set` raises that abort before dispatching any backend
configuration.  (With the MUMPS solver class, a different fatal diagnostic
— without the restart value — fires first.) -/
theorem check_settings_restart_spec (cfg : build_config)
    (slesp : cs_param_sles_t)
    (hsol : slesp.solver = cs_param_itsol_type_t.gmres
      ∨ slesp.solver = cs_param_itsol_type_t.fgmres
      ∨ slesp.solver = cs_param_itsol_type_t.gcr)
    (hres : slesp.restart < 2)
    (hcls : slesp.solver_class ≠ cs_param_sles_class_t.mumps) :
    _check_settings cfg slesp
      = Except.error (sles_error_t.restart_too_small slesp.name slesp.restart)
    ∧ cs_param_sles_set cfg slesp
      = Except.error (sles_error_t.restart_too_small slesp.name slesp.restart) := by
  have hmu : ¬ slesp.solver = cs_param_itsol_type_t.mumps := by
    rcases hsol with h | h | h <;> simp [h]
  have hcheck : _check_settings cfg slesp
      = Except.error (sles_error_t.restart_too_small slesp.name slesp.restart) := by
    unfold _check_settings
    rw [if_neg hmu, if_neg hcls]
    simp only
    rw [if_pos ⟨hsol, hres⟩]
  refine ⟨hcheck, ?_⟩
  unfold cs_param_sles_set
  rw [hcheck]

/-- C5 counterexample: a GCR parameter set with restart 0 but solver class
MUMPS aborts with the MUMPS-inconsistency diagnostic, which does not carry
the restart value, so the claimed diagnostic is not produced. -/
theorem check_settings_restart_counterexample :
    _check_settings cfg_all
        { cs_param_sles_create 0 (some "eq") with
            solver_class := cs_param_sles_class_t.mumps
            restart := 0 }
      = Except.error (sles_error_t.mumps_class_inconsistent (some "eq"))
    ∧ _check_settings cfg_all
        { cs_param_sles_create 0 (some "eq") with
            solver_class := cs_param_sles_class_t.mumps
            restart := 0 }
      ≠ Except.error (sles_error_t.restart_too_small (some "eq") 0) := by
  have hval : _check_settings cfg_all
      { cs_param_sles_create 0 (some "eq") with
          solver_class := cs_param_sles_class_t.mumps
          restart := 0 }
    = Except.error (sles_error_t.mumps_class_inconsistent (some "eq")) := rfl
  refine ⟨hval, ?_⟩
  rw [hval]
  intro h
  exact absurd (Except.error.inj h) (by decide)

/-- C5 witness: the amended theorem evaluated on a GCR parameter set with
restart 0 and the default (code_saturne) solver class. -/
theorem check_settings_restart_spec_witness :
    _check_settings cfg_all
        { cs_param_sles_create 0 (some "eq2") with restart := 0 }
      = Except.error (sles_error_t.restart_too_small (some "eq2") 0)
    ∧ cs_param_sles_set cfg_all
        { cs_param_sles_create 0 (some "eq2") with restart := 0 }
      = Except.error (sles_error_t.restart_too_small (some "eq2") 0) :=
  check_settings_restart_spec cfg_all
    { cs_param_sles_create 0 (some "eq2") with restart := 0 }
    (Or.inr (Or.inr rfl)) (by decide) (by decide)

/-- C6 (amended): under more than one process and an iterative (non-MUMPS)
solver, `_petsc_set_pc_type` never aborts on an SSOR or ICC0 request: for
SSOR it applies the block symmetric Gauss-Seidel hook, records the
substitution in the preconditioner field (now block-Jacobi SGS) and logs a
warning; for ICC0 it applies the block ICC hook and logs a warning but
leaves the preconditioner field at ICC0 (the substitution is not recorded
there). -/
theorem petsc_set_pc_type_fallback_spec (cfg : build_config) (n_ranks : Nat)
    (slesp : cs_param_sles_t) (hranks : n_ranks > 1)
    (hmu : slesp.solver ≠ cs_param_itsol_type_t.mumps) :
    (slesp.precond = cs_param_precond_type_t.ssor →
      _petsc_set_pc_type cfg n_ranks slesp
        = Except.ok
            ({ slesp with precond := cs_param_precond_type_t.bjacob_sgs },
             [pc_action_t.warn_switch_to_block_jacobi,
              pc_action_t.bssor_hook, pc_action_t.pc_setup]))
    ∧ (slesp.precond = cs_param_precond_type_t.icc0 →
      _petsc_set_pc_type cfg n_ranks slesp
        = Except.ok
            (slesp,
             [pc_action_t.warn_switch_to_block_jacobi,
              pc_action_t.bicc0_hook, pc_action_t.pc_setup])) := by
  constructor
  · intro hp
    unfold _petsc_set_pc_type
    rw [if_neg hmu]
    simp only [hp]
    rw [if_pos hranks]
    rfl
  · intro hp
    unfold _petsc_set_pc_type
    rw [if_neg hmu]
    simp only [hp]
    rw [if_pos hranks]
    rfl

/-- C6 counterexample: an ICC0 request on two processes returns successfully
with the warning and the block ICC hook, but the preconditioner field of the
returned parameter set is still ICC0 — the block-Jacobi substitution is not
recorded in the parameter object. -/
theorem petsc_set_pc_type_icc0_counterexample :
    _petsc_set_pc_type cfg_all 2
        { cs_param_sles_create 0 (some "eq3") with
            precond := cs_param_precond_type_t.icc0 }
      = Except.ok
          ({ cs_param_sles_create 0 (some "eq3") with
              precond := cs_param_precond_type_t.icc0 },
           [pc_action_t.warn_switch_to_block_jacobi,
            pc_action_t.bicc0_hook, pc_action_t.pc_setup])
    ∧ ({ cs_param_sles_create 0 (some "eq3") with
          precond := cs_param_precond_type_t.icc0 } :
            cs_param_sles_t).precond
        ≠ cs_param_precond_type_t.bjacob_sgs := by
  exact ⟨rfl, by decide⟩

/-- C6 witness: the amended theorem evaluated on an SSOR request under two
processes. -/
theorem petsc_set_pc_type_fallback_spec_witness :
    _petsc_set_pc_type cfg_all 2
        { cs_param_sles_create 0 (some "eq4") with
            precond := cs_param_precond_type_t.ssor }
      = Except.ok
          ({ { cs_param_sles_create 0 (some "eq4") with
                precond := cs_param_precond_type_t.ssor } with
              precond := cs_param_precond_type_t.bjacob_sgs },
           [pc_action_t.warn_switch_to_block_jacobi,
            pc_action_t.bssor_hook, pc_action_t.pc_setup]) :=
  (petsc_set_pc_type_fallback_spec cfg_all 2
      { cs_param_sles_create 0 (some "eq4") with
          precond := cs_param_precond_type_t.ssor }
      (by decide) (by decide)).1 rfl


/-! #### Helper lemmas for `cs_param_sles_copy_from` -/

theorem copy_from_context_cases (src dst : cs_param_sles_t) (fresh : Nat) :
    (cs_param_sles_copy_from src dst fresh).context_param
      = (if src.precond = cs_param_precond_type_t.mumps
            ∨ src.solver = cs_param_itsol_type_t.mumps then
          cs_param_mumps_copy fresh src.context_param
         else if cs_param_amg_boomer_is_needed src.solver src.precond
            src.amg_type then
          cs_param_amg_boomer_copy fresh src.context_param
         else none) := by
  by_cases hm : src.precond = cs_param_precond_type_t.mumps
      ∨ src.solver = cs_param_itsol_type_t.mumps
  · simp [cs_param_sles_copy_from, hm]
  · by_cases hb : cs_param_amg_boomer_is_needed src.solver src.precond
        src.amg_type = true
    · simp [cs_param_sles_copy_from, hm, hb]
    · simp [cs_param_sles_copy_from, hm, hb]

theorem copy_from_scalar_fields (src dst : cs_param_sles_t) (fresh : Nat) :
    (cs_param_sles_copy_from src dst fresh).setup_done = src.setup_done
    ∧ (cs_param_sles_copy_from src dst fresh).verbosity = src.verbosity
    ∧ (cs_param_sles_copy_from src dst fresh).field_id = src.field_id
    ∧ (cs_param_sles_copy_from src dst fresh).solver_class = src.solver_class
    ∧ (cs_param_sles_copy_from src dst fresh).precond = src.precond
    ∧ (cs_param_sles_copy_from src dst fresh).solver = src.solver
    ∧ (cs_param_sles_copy_from src dst fresh).amg_type = src.amg_type
    ∧ (cs_param_sles_copy_from src dst fresh).pcd_block_type
        = src.pcd_block_type
    ∧ (cs_param_sles_copy_from src dst fresh).resnorm_type = src.resnorm_type
    ∧ (cs_param_sles_copy_from src dst fresh).cvg_param = src.cvg_param := by
  by_cases hm : src.precond = cs_param_precond_type_t.mumps
      ∨ src.solver = cs_param_itsol_type_t.mumps
  · simp [cs_param_sles_copy_from, hm]
  · by_cases hb : cs_param_amg_boomer_is_needed src.solver src.precond
        src.amg_type = true
    · simp [cs_param_sles_copy_from, hm, hb]
    · simp [cs_param_sles_copy_from, hm, hb]

/-- C8: `cs_param_sles_copy_from` copies the scalar configuration fields
(setup flag, verbosity, field id, solver class, preconditioner, solver, AMG
type, block-preconditioner type, residual-normalization type, and the four
convergence thresholds) and allocates a fresh deep copy of the
algorithm-specific sub-parameter block — never aliasing the source block —
exactly when the resulting solver/preconditioner choice implies that block
type (MUMPS solver or MUMPS preconditioner, or a BoomerAMG-requiring
combination); otherwise the destination block is left null.  `hfresh` is the
allocator contract: the fresh address differs from the source block's. -/
theorem cs_param_sles_copy_from_spec (src dst : cs_param_sles_t) (fresh : Nat)
    (hfresh : ∀ c, src.context_param = some c → c.addr ≠ fresh) :
    (cs_param_sles_copy_from src dst fresh).setup_done = src.setup_done
    ∧ (cs_param_sles_copy_from src dst fresh).verbosity = src.verbosity
    ∧ (cs_param_sles_copy_from src dst fresh).field_id = src.field_id
    ∧ (cs_param_sles_copy_from src dst fresh).solver_class = src.solver_class
    ∧ (cs_param_sles_copy_from src dst fresh).precond = src.precond
    ∧ (cs_param_sles_copy_from src dst fresh).solver = src.solver
    ∧ (cs_param_sles_copy_from src dst fresh).amg_type = src.amg_type
    ∧ (cs_param_sles_copy_from src dst fresh).pcd_block_type
        = src.pcd_block_type
    ∧ (cs_param_sles_copy_from src dst fresh).resnorm_type = src.resnorm_type
    ∧ (cs_param_sles_copy_from src dst fresh).cvg_param = src.cvg_param
    ∧ (((src.precond = cs_param_precond_type_t.mumps
          ∨ src.solver = cs_param_itsol_type_t.mumps)
        ∨ cs_param_amg_boomer_is_needed src.solver src.precond src.amg_type
            = true) →
        ((src.context_param = none →
            (cs_param_sles_copy_from src dst fresh).context_param = none)
         ∧ ∀ c, src.context_param = some c →
            (cs_param_sles_copy_from src dst fresh).context_param
              = some { c with addr := fresh }
            ∧ (cs_param_sles_copy_from src dst fresh).context_param
              ≠ src.context_param))
    ∧ ((¬ ((src.precond = cs_param_precond_type_t.mumps
          ∨ src.solver = cs_param_itsol_type_t.mumps)
        ∨ cs_param_amg_boomer_is_needed src.solver src.precond src.amg_type
            = true)) →
        (cs_param_sles_copy_from src dst fresh).context_param = none) := by
  have hscal := copy_from_scalar_fields src dst fresh
  have hctx := copy_from_context_cases src dst fresh
  obtain ⟨h1, h2, h3, h4, h5, h6, h7, h8, h9, h10⟩ := hscal
  refine ⟨h1, h2, h3, h4, h5, h6, h7, h8, h9, h10, ?_, ?_⟩
  · intro hcond
    constructor
    · intro hnone
      rw [hctx, hnone]
      split
      · rfl
      · split
        · rfl
        · rfl
    · intro c hs
      have hval : (cs_param_sles_copy_from src dst fresh).context_param
          = some { c with addr := fresh } := by
        rw [hctx, hs]
        by_cases hm : src.precond = cs_param_precond_type_t.mumps
            ∨ src.solver = cs_param_itsol_type_t.mumps
        · rw [if_pos hm]
          rfl
        · rw [if_neg hm, if_pos (hcond.resolve_left hm)]
          rfl
      refine ⟨hval, ?_⟩
      rw [hval, hs]
      intro heq
      have := congrArg param_context.addr (Option.some_inj.mp heq)
      exact hfresh c hs this.symm
  · intro hn
    rw [hctx, if_neg (fun h => hn (Or.inl h)),
      if_neg (fun h => hn (Or.inr h))]

/-- C8 witness: the copy rule evaluated on a MUMPS-solver source carrying a
sub-parameter block at address 0, copied with fresh address 7. -/
theorem cs_param_sles_copy_from_spec_witness :
    ((cs_param_sles_copy_from
        { cs_param_sles_create 0 (some "s") with
            solver := cs_param_itsol_type_t.mumps
            solver_class := cs_param_sles_class_t.mumps
            context_param := some
              { addr := 0, kind := param_context_kind.mumps, payload := 5 } }
        (cs_param_sles_create 1 (some "d")) 7).solver
      = cs_param_itsol_type_t.mumps)
    ∧ ((cs_param_sles_copy_from
        { cs_param_sles_create 0 (some "s") with
            solver := cs_param_itsol_type_t.mumps
            solver_class := cs_param_sles_class_t.mumps
            context_param := some
              { addr := 0, kind := param_context_kind.mumps, payload := 5 } }
        (cs_param_sles_create 1 (some "d")) 7).context_param
      = some { addr := 7, kind := param_context_kind.mumps, payload := 5 })
    ∧ ((cs_param_sles_copy_from
        { cs_param_sles_create 0 (some "s") with
            solver := cs_param_itsol_type_t.mumps
            solver_class := cs_param_sles_class_t.mumps
            context_param := some
              { addr := 0, kind := param_context_kind.mumps, payload := 5 } }
        (cs_param_sles_create 1 (some "d")) 7).context_param
      ≠ some { addr := 0, kind := param_context_kind.mumps, payload := 5 }) := by
  have h := cs_param_sles_copy_from_spec
    { cs_param_sles_create 0 (some "s") with
        solver := cs_param_itsol_type_t.mumps
        solver_class := cs_param_sles_class_t.mumps
        context_param := some
          { addr := 0, kind := param_context_kind.mumps, payload := 5 } }
    (cs_param_sles_create 1 (some "d")) 7
    (by intro c hc; cases Option.some_inj.mp hc; decide)
  have h11 := h.2.2.2.2.2.2.2.2.2.2.1 (Or.inl (Or.inr rfl))
  have hc := h11.2 { addr := 0, kind := param_context_kind.mumps, payload := 5 }
    rfl
  exact ⟨h.2.2.2.2.2.1, hc.1, fun heq => hc.2 (by rw [heq])⟩

/-- C7 (amended): in every `cs_saddle_minres` iteration, an exactly zero
Lanczos coefficient `beta` and a rotation normalizer `rho1` not exceeding
`DBL_MIN = 2^-1022` in magnitude are fatal precondition violations signalled
before the corresponding division is reached, and an iteration can only
complete when both guards passed; a nonzero `beta`, however small, passes
the first guard (the check is `fabs(beta) > 0`, not a near-zero test). -/
theorem cs_saddle_minres_guard_spec (alpha dp : ℝ) (st : minres_scalars) :
    (st.beta = 0 →
      cs_saddle_minres_scalar_step alpha dp st
        (Except.error minres_fatal.beta_zero))
    ∧ (st.beta ≠ 0 →
        |Real.sqrt ((st.c * alpha - st.cold * st.s * st.beta)
            * (st.c * alpha - st.cold * st.s * st.beta)
          + Real.sqrt |dp| * Real.sqrt |dp|)| ≤ (2 : ℝ) ^ (-1022 : ℤ) →
        cs_saddle_minres_scalar_step alpha dp st
          (Except.error minres_fatal.rho1_small))
    ∧ (∀ st', cs_saddle_minres_scalar_step alpha dp st (Except.ok st') →
        st.beta ≠ 0
        ∧ (2 : ℝ) ^ (-1022 : ℤ)
          < |Real.sqrt ((st.c * alpha - st.cold * st.s * st.beta)
              * (st.c * alpha - st.cold * st.s * st.beta)
            + Real.sqrt |dp| * Real.sqrt |dp|)|) := by
  refine ⟨?_, ?_, ?_⟩
  · intro hb
    exact Or.inl ⟨by rw [hb, abs_zero]; exact lt_irrefl 0, rfl⟩
  · intro hb hle
    exact Or.inr ⟨abs_pos.mpr hb, Or.inl ⟨not_lt.mpr hle, rfl⟩⟩
  · intro st' h
    rcases h with ⟨-, habs⟩ | ⟨hb, h⟩
    · exact absurd habs (by simp)
    · rcases h with ⟨-, habs⟩ | ⟨hlt, -⟩
      · exact absurd habs (by simp)
      · exact ⟨fun h0 => by rw [h0, abs_zero] at hb; exact lt_irrefl 0 hb, hlt⟩

/-- C7 witness: the amended theorem applied at a state with `beta = 0`: the
iteration signals the fatal `beta` precondition. -/
theorem cs_saddle_minres_guard_spec_witness :
    cs_saddle_minres_scalar_step 1 1
      { beta := 0, betaold := 1, c := 1, cold := 1, s := 0, sold := 0,
        eta := 1, res := 1 }
      (Except.error minres_fatal.beta_zero) :=
  (cs_saddle_minres_guard_spec 1 1
    { beta := 0, betaold := 1, c := 1, cold := 1, s := 0, sold := 0,
      eta := 1, res := 1 }).1 rfl

/-- C7 counterexample: with `beta = 2^-1050` — nonzero but far below the
`DBL_MIN = 2^-1022` threshold the code itself uses as "near zero" for
`rho1` (and below the smallest normal double) — the iteration is not
signalled as fatal: it runs to completion, dividing by `beta`. -/
theorem cs_saddle_minres_near_zero_beta_counterexample :
    cs_saddle_minres_scalar_step 1 0
      { beta := (2 : ℝ) ^ (-1050 : ℤ), betaold := 1, c := 1, cold := 0,
        s := 0, sold := 0, eta := 1, res := 1 }
      (Except.ok
        { beta := 0, betaold := (2 : ℝ) ^ (-1050 : ℤ), c := 1, cold := 1,
          s := 0, sold := 0, eta := 0, res := 0 })
    ∧ (2 : ℝ) ^ (-1050 : ℤ) ≠ 0
    ∧ (2 : ℝ) ^ (-1050 : ℤ) < (2 : ℝ) ^ (-1022 : ℤ) := by
  have hpow : (0 : ℝ) < (2 : ℝ) ^ (-1050 : ℤ) := by positivity
  have hrho0 : (1 : ℝ) * 1 - 0 * 0 * (2 : ℝ) ^ (-1050 : ℤ) = 1 := by ring
  have hbeta1 : Real.sqrt |(0 : ℝ)| = 0 := by
    rw [abs_zero, Real.sqrt_zero]
  have hrho1 : Real.sqrt ((1 : ℝ) * 1 + 0 * 0) = 1 := by
    norm_num
  have hdbl : (2 : ℝ) ^ (-1022 : ℤ) < 1 := by
    have h1 : (2 : ℝ) ^ (-1022 : ℤ) < (2 : ℝ) ^ (0 : ℤ) := by
      gcongr
      · norm_num
      · norm_num
    simpa using h1
  refine ⟨?_, ne_of_gt hpow, ?_⟩
  · refine Or.inr ⟨by rw [abs_of_pos hpow]; exact hpow, ?_⟩
    refine Or.inr ⟨?_, ?_⟩
    · show (2 : ℝ) ^ (-1022 : ℤ)
        < |Real.sqrt (((1 : ℝ) * 1 - 0 * 0 * (2 : ℝ) ^ (-1050 : ℤ))
            * ((1 : ℝ) * 1 - 0 * 0 * (2 : ℝ) ^ (-1050 : ℤ))
          + Real.sqrt |(0 : ℝ)| * Real.sqrt |(0 : ℝ)|)|
      rw [hbeta1, hrho0]
      norm_num [hrho1, hdbl]
    · show Except.ok
          (minres_scalars.mk 0 ((2 : ℝ) ^ (-1050 : ℤ)) 1 1 0 0 0 0)
        = Except.ok (minres_scalars.mk _ _ _ _ _ _ _ _)
      rw [hbeta1, hrho0]
      norm_num [hrho1]
  · gcongr
    · norm_num
    · norm_num
